import Mathlib

/-!
Verification of the skin-tone analysis core (src/app.py and src/app2.py).

The embedding models the two analytic functions of the repository,
`analyze_skin_color` and `get_central_region`, in both their minimal
(app.py) and extended (app2.py) variants, together with the hex color
formatting line of `main`.  Images are lists of rows of BGR pixels;
the OpenCV primitives used by the code (`cvtColor` BGR->HSV 8-bit path,
`inRange`, `bitwise_and` with mask, boolean-mask indexing) and the NumPy
mean are modelled by executable Lean functions faithful to those
libraries' documented integer semantics.  NumPy's float64 mean of 8-bit
pixels followed by `astype(int)` truncation agrees exactly with the floor
of the exact rational mean at these magnitudes (sums are far below 2^53
and correctly rounded division cannot cross an integer boundary), so the
mean is modelled by natural-number division.
-/

namespace SkinTone

/-- A pixel in BGR channel order, as stored by cv2.imdecode. -/
structure Pixel where
  b : Nat
  g : Nat
  r : Nat
deriving DecidableEq, Repr

/-- An image: a list of rows, each row a list of BGR pixels. -/
abbrev Image := List (List Pixel)

/-- A hue/saturation/value triple on OpenCV's 8-bit scale (hue 0..179). -/
structure HSV where
  h : Nat
  s : Nat
  v : Nat
deriving DecidableEq, Repr

/-- Round-to-nearest division (ties up; the OpenCV tables below have no ties). -/
def roundDiv (n d : Nat) : Nat := (2 * n + d) / (2 * d)

/-- OpenCV sdiv_table entry: round(255 * 2^12 / v) for v > 0. -/
def sdivTable (v : Nat) : Nat := if v = 0 then 0 else roundDiv (255 * 4096) v

/-- OpenCV hdiv_table180 entry: round(180 * 2^12 / (6 * d)) for d > 0. -/
def hdivTable (d : Nat) : Nat := if d = 0 then 0 else roundDiv (180 * 4096) (6 * d)

/-- Models cv2.cvtColor with COLOR_BGR2HSV on one 8-bit pixel: OpenCV's
fixed-point path with hsv_shift = 12, hue range 0..179. -/
def bgr2hsvPixel (p : Pixel) : HSV :=
  let v := max p.b (max p.g p.r)
  let vmin := min p.b (min p.g p.r)
  let diff := v - vmin
  let s := (diff * sdivTable v + 2048) / 4096
  let hraw : Int :=
    if v = p.r then (p.g : Int) - (p.b : Int)
    else if v = p.g then ((p.b : Int) - (p.r : Int)) + 2 * (diff : Int)
    else ((p.r : Int) - (p.g : Int)) + 4 * (diff : Int)
  let hscaled : Int := Int.fdiv (hraw * (hdivTable diff : Int) + 2048) 4096
  let hfinal : Int := if hscaled < 0 then hscaled + 180 else hscaled
  ⟨hfinal.toNat, s, v⟩

/-- hsv = cv2.cvtColor(image, cv2.COLOR_BGR2HSV). -/
def cvtColorBGR2HSV (img : Image) : List (List HSV) :=
  img.map (fun row => row.map bgr2hsvPixel)

/-- lower_skin = np.array([0, 20, 70]). -/
def lower_skin : HSV := ⟨0, 20, 70⟩

/-- upper_skin = np.array([20, 255, 255]). -/
def upper_skin : HSV := ⟨20, 255, 255⟩

/-- cv2.inRange on one element: channel-wise lo <= c <= hi. -/
def inRangeHSV (lo hi c : HSV) : Bool :=
  decide (lo.h ≤ c.h ∧ c.h ≤ hi.h ∧ lo.s ≤ c.s ∧ c.s ≤ hi.s ∧ lo.v ≤ c.v ∧ c.v ≤ hi.v)

/-- The per-pixel skin classification: inRange applied to the HSV conversion. -/
def skinTest (p : Pixel) : Bool :=
  inRangeHSV lower_skin upper_skin (bgr2hsvPixel p)

/-- mask = cv2.inRange(hsv, lower_skin, upper_skin), a grid of booleans
(OpenCV stores 255 for true, 0 for false; only truth matters downstream). -/
def skinMask (img : Image) : List (List Bool) :=
  (cvtColorBGR2HSV img).map (fun row => row.map (inRangeHSV lower_skin upper_skin))

/-- The zero pixel [0, 0, 0]. -/
def blackPixel : Pixel := ⟨0, 0, 0⟩

/-- skin = cv2.bitwise_and(image, image, mask=mask): the image where the mask
is nonzero, zero elsewhere. -/
def bitwiseAndMask (img : Image) (mask : List (List Bool)) : Image :=
  (img.zip mask).map (fun rm => (rm.1.zip rm.2).map (fun pm => if pm.2 then pm.1 else blackPixel))

/-- skin_pixels = skin[mask > 0]: row-major list of the pixels at positions
where the mask is true. -/
def selectMasked (img : Image) (mask : List (List Bool)) : List Pixel :=
  ((img.zip mask).map (fun rm => ((rm.1.zip rm.2).filter (fun pm => pm.2)).map Prod.fst)).flatten

/-- A color sample in red-green-blue order, as presented to the user. -/
structure RGB where
  r : Nat
  g : Nat
  b : Nat
deriving DecidableEq, Repr

/-- Blue channel of np.mean(ps, axis=0).astype(int): floor of the exact mean. -/
def meanB (ps : List Pixel) : Nat := (ps.map Pixel.b).sum / ps.length

/-- Green channel of np.mean(ps, axis=0).astype(int). -/
def meanG (ps : List Pixel) : Nat := (ps.map Pixel.g).sum / ps.length

/-- Red channel of np.mean(ps, axis=0).astype(int). -/
def meanR (ps : List Pixel) : Nat := (ps.map Pixel.r).sum / ps.length

/-- average_color[::-1]: the per-channel mean of a BGR pixel list, with the
channel order reversed so the result reads red, green, blue. -/
def reversedMean (ps : List Pixel) : RGB := ⟨meanR ps, meanG ps, meanB ps⟩

/-- analyze_skin_color from src/app.py. -/
def analyze_skin_color (image : Image) : Option RGB :=
  let mask := skinMask image
  let skin := bitwiseAndMask image mask
  let skin_pixels := selectMasked skin mask
  if skin_pixels.length = 0 then none
  else some (reversedMean skin_pixels)

/-- skin_visualization: a copy of the image with every pixel where the mask
is 0 set to [0, 0, 0]. -/
def skinVisualization (image : Image) (mask : List (List Bool)) : Image :=
  (image.zip mask).map (fun rm => (rm.1.zip rm.2).map (fun pm => if pm.2 then pm.1 else blackPixel))

/-- analyze_skin_color from src/app2.py: also returns the visualization. -/
def analyze_skin_color2 (image : Image) : Option RGB × Option Image :=
  let mask := skinMask image
  let skin := bitwiseAndMask image mask
  let skin_pixels := selectMasked skin mask
  if skin_pixels.length = 0 then (none, none)
  else (some (reversedMean skin_pixels), some (skinVisualization image mask))

/-- width from image.shape[:2]: the length of the first row (0 if no rows). -/
def imageWidth (image : Image) : Nat := (image.headD []).length

/-- NumPy slice xs[start:stop] for nonnegative start and stop: elements from
index start up to (exclusive) stop, clamped to the list. -/
def sliceList {α : Type} (xs : List α) (start stop : Nat) : List α :=
  (xs.drop start).take (stop - start)

/-- get_central_region from src/app.py.  The margins int(dim*(100-p)/200)
are modelled by natural division, which is exact truncation for p <= 100. -/
def get_central_region (image : Image) (percentage : Nat) : Image :=
  let height := image.length
  let width := imageWidth image
  let margin_x := width * (100 - percentage) / 200
  let margin_y := height * (100 - percentage) / 200
  (sliceList image margin_y (height - margin_y)).map
    (fun row => sliceList row margin_x (width - margin_x))

/-- region_coords from src/app2.py. -/
structure RegionCoords where
  top : Nat
  bottom : Nat
  left : Nat
  right : Nat
deriving DecidableEq, Repr

/-- get_central_region from src/app2.py: also returns the bounds used. -/
def get_central_region2 (image : Image) (percentage : Nat) : Image × RegionCoords :=
  let height := image.length
  let width := imageWidth image
  let margin_x := width * (100 - percentage) / 200
  let margin_y := height * (100 - percentage) / 200
  let center_region := (sliceList image margin_y (height - margin_y)).map
    (fun row => sliceList row margin_x (width - margin_x))
  (center_region, ⟨margin_y, height - margin_y, margin_x, width - margin_x⟩)

/-- One lowercase hexadecimal digit character, as Python hex formatting emits. -/
def pyHexDigitChar (n : Nat) : Char :=
  if n < 10 then Char.ofNat (48 + n) else Char.ofNat (87 + n)

/-- Hex digit accumulator: the first argument is recursion fuel.  Fuel n is
always enough for the number n, since n / 16 < n whenever 16 <= n. -/
def hexDigitsCore : Nat → Nat → List Char
  | 0, n => [pyHexDigitChar (n % 16)]
  | fuel + 1, n =>
    if n < 16 then [pyHexDigitChar n]
    else hexDigitsCore fuel (n / 16) ++ [pyHexDigitChar (n % 16)]

/-- The lowercase hexadecimal digits of n, most significant first. -/
def pyHexDigits (n : Nat) : List Char := hexDigitsCore n n

/-- Python format specifier {:02x}: lowercase hex, zero-padded to width 2. -/
def format02x (n : Nat) : String :=
  let ds := pyHexDigits n
  String.mk (List.replicate (2 - ds.length) '0' ++ ds)

/-- The hex code line of main: '#{:02x}{:02x}{:02x}'.format(r, g, b) applied
to the red-green-blue ordered color. -/
def hexColor (c : RGB) : String :=
  "#" ++ format02x c.r ++ format02x c.g ++ format02x c.b

/-- Numeric value of a lowercase hexadecimal digit character. -/
def hexVal (c : Char) : Nat :=
  if 97 ≤ c.toNat then c.toNat - 87 else c.toNat - 48

/-- Whether a character is a lowercase hexadecimal digit. -/
def isLowerHexDigit (c : Char) : Bool :=
  decide (('0' ≤ c ∧ c ≤ '9') ∨ ('a' ≤ c ∧ c ≤ 'f'))

/-! ### Structural lemmas about the mask pipeline -/

lemma skinMask_eq_map (img : Image) :
    skinMask img = img.map (fun row => row.map skinTest) := by
  simp only [skinMask, cvtColorBGR2HSV, List.map_map, Function.comp_def]
  rfl

lemma zip_map_self {α β γ : Type} (f : α → β) (g : α × β → γ) (l : List α) :
    (l.zip (l.map f)).map g = l.map (fun a => g (a, f a)) := by
  induction l with
  | nil => rfl
  | cons a t ih => simp [ih]

lemma bitwiseAnd_skin_eq (img : Image) :
    bitwiseAndMask img (skinMask img)
      = img.map (fun row => row.map (fun p => if skinTest p then p else blackPixel)) := by
  rw [skinMask_eq_map]
  unfold bitwiseAndMask
  simp only [zip_map_self]

lemma skinVisualization_eq (img : Image) :
    skinVisualization img (skinMask img)
      = img.map (fun row => row.map (fun p => if skinTest p then p else blackPixel)) := by
  rw [skinMask_eq_map]
  unfold skinVisualization
  simp only [zip_map_self]

lemma select_and_row (row : List Pixel) :
    ((((row.map (fun p => if skinTest p then p else blackPixel)).zip
        (row.map skinTest)).filter (fun pm => pm.2)).map Prod.fst)
      = row.filter skinTest := by
  induction row with
  | nil => rfl
  | cons a t ih =>
    by_cases h : skinTest a = true
    · simp [List.filter_cons, h, ih]
    · rw [Bool.not_eq_true] at h
      simp [List.filter_cons, h, ih]

lemma select_skin_eq (img : Image) :
    selectMasked (bitwiseAndMask img (skinMask img)) (skinMask img)
      = img.flatten.filter skinTest := by
  rw [bitwiseAnd_skin_eq, skinMask_eq_map, List.filter_flatten]
  unfold selectMasked
  induction img with
  | nil => rfl
  | cons row t ih =>
    simp only [List.map_cons, List.zip_cons_cons, List.flatten_cons]
    rw [select_and_row]
    exact congrArg (_ ++ ·) ih

lemma analyze_skin_color_eq (img : Image) :
    analyze_skin_color img =
      if (img.flatten.filter skinTest).length = 0 then none
      else some (reversedMean (img.flatten.filter skinTest)) := by
  simp only [analyze_skin_color]
  rw [select_skin_eq]

lemma analyze_skin_color2_eq (img : Image) :
    analyze_skin_color2 img =
      if (img.flatten.filter skinTest).length = 0 then (none, none)
      else (some (reversedMean (img.flatten.filter skinTest)),
            some (skinVisualization img (skinMask img))) := by
  simp only [analyze_skin_color2]
  rw [select_skin_eq]

/-! ### Claim theorems -/

/-- C1: for every image region in which at least one pixel satisfies the
skin-tone mask, analyze_skin_color returns the per-channel arithmetic mean of
exactly the mask-selected pixels of the input region, truncated to an integer
per channel (natural division is the floor of the exact mean, which is what
NumPy's float mean followed by astype(int) produces at these magnitudes),
with the three channels reversed from the source BGR order so the result
reads red, green, blue. -/
theorem analyze_skin_color_mean_spec (img : Image)
    (hex : ∃ p ∈ img.flatten, skinTest p = true) :
    analyze_skin_color img =
      some ⟨((img.flatten.filter skinTest).map Pixel.r).sum / (img.flatten.filter skinTest).length,
            ((img.flatten.filter skinTest).map Pixel.g).sum / (img.flatten.filter skinTest).length,
            ((img.flatten.filter skinTest).map Pixel.b).sum / (img.flatten.filter skinTest).length⟩ := by
  obtain ⟨p, hp, hs⟩ := hex
  have hmem : p ∈ img.flatten.filter skinTest := List.mem_filter.2 ⟨hp, hs⟩
  have hne : (img.flatten.filter skinTest).length ≠ 0 := by
    have := List.length_pos.2 (List.ne_nil_of_mem hmem)
    omega
  rw [analyze_skin_color_eq, if_neg hne]
  rfl

/-- Witness for C1: a one-pixel region whose pixel passes the mask; the mean
is the pixel itself, reported in red-green-blue order. -/
theorem analyze_skin_color_mean_spec_witness :
    (∃ p ∈ ([[⟨91, 111, 150⟩]] : Image).flatten, skinTest p = true) ∧
    analyze_skin_color [[⟨91, 111, 150⟩]] = some ⟨150, 111, 91⟩ :=
  ⟨by decide,
   (analyze_skin_color_mean_spec [[⟨91, 111, 150⟩]] (by decide)).trans (by decide)⟩

/-- C2: a pixel is selected by the mask built in analyze_skin_color iff its
hue/saturation/value representation has hue in [0, 20] on the 0-179 scale,
saturation in [20, 255] and value in [70, 255]; the thresholds are the fixed
constants lower_skin and upper_skin, taken by no parameter. -/
theorem skinMask_entry_iff (img : Image) (row : List Pixel) (p : Pixel) (i j : Nat)
    (hrow : img[i]? = some row) (hp : row[j]? = some p) :
    (∃ mrow, (skinMask img)[i]? = some mrow ∧ mrow[j]? = some true) ↔
      ((bgr2hsvPixel p).h ≤ 20 ∧ 20 ≤ (bgr2hsvPixel p).s ∧ (bgr2hsvPixel p).s ≤ 255 ∧
        70 ≤ (bgr2hsvPixel p).v ∧ (bgr2hsvPixel p).v ≤ 255) := by
  rw [skinMask_eq_map]
  have h1 : (img.map (fun r => r.map skinTest))[i]? = some (row.map skinTest) := by
    rw [List.getElem?_map, hrow]; rfl
  have h2 : (row.map skinTest)[j]? = some (skinTest p) := by
    rw [List.getElem?_map, hp]; rfl
  constructor
  · rintro ⟨mrow, hm, hj⟩
    rw [h1] at hm
    injection hm with hm
    subst hm
    rw [h2] at hj
    injection hj with hj
    have hnum := of_decide_eq_true hj
    obtain ⟨c1, c2, c3, c4, c5, c6⟩ := hnum
    exact ⟨c2, c3, c4, c5, c6⟩
  · intro hcond
    obtain ⟨c1, c2, c3, c4, c5⟩ := hcond
    refine ⟨row.map skinTest, h1, ?_⟩
    rw [h2]
    have : skinTest p = true := by
      apply decide_eq_true
      exact ⟨Nat.zero_le _, c1, c2, c3, c4, c5⟩
    rw [this]

/-- Witness for C2 at pixel BGR (91, 111, 150), whose HSV is (10, 100, 150). -/
theorem skinMask_entry_iff_witness :
    (([[⟨91, 111, 150⟩]] : Image)[0]? = some [⟨91, 111, 150⟩]) ∧
    ([(⟨91, 111, 150⟩ : Pixel)][0]? = some ⟨91, 111, 150⟩) ∧
    (∃ mrow, (skinMask [[⟨91, 111, 150⟩]])[0]? = some mrow ∧ mrow[0]? = some true) :=
  ⟨by decide, by decide,
   (skinMask_entry_iff [[⟨91, 111, 150⟩]] [⟨91, 111, 150⟩] ⟨91, 111, 150⟩ 0 0
     (by decide) (by decide)).2 (by decide)⟩

/-- C3: the undefined sentinel (none; (none, none) in the extended variant)
is returned iff no pixel of the region passes the skin mask; the extended
variant produces no visualization exactly in that case, and the failure is a
returned value of the total function, not an exception. -/
theorem analyze_none_iff (img : Image) :
    (analyze_skin_color img = none ↔ ∀ p ∈ img.flatten, skinTest p = false) ∧
    ((analyze_skin_color2 img).1 = none ↔ ∀ p ∈ img.flatten, skinTest p = false) ∧
    ((analyze_skin_color2 img).2 = none ↔ ∀ p ∈ img.flatten, skinTest p = false) := by
  have hlen : (img.flatten.filter skinTest).length = 0 ↔
      (∀ p ∈ img.flatten, skinTest p = false) := by
    rw [List.length_eq_zero, List.filter_eq_nil_iff]
    constructor
    · intro h p hp
      simpa using h p hp
    · intro h p hp
      simp [h p hp]
  rw [analyze_skin_color_eq, analyze_skin_color2_eq]
  by_cases hc : (img.flatten.filter skinTest).length = 0
  · have hall := hlen.1 hc
    refine ⟨?_, ?_, ?_⟩ <;> rw [if_pos hc] <;> exact iff_of_true rfl hall
  · have hnall : ¬ (∀ p ∈ img.flatten, skinTest p = false) := fun hall => hc (hlen.2 hall)
    refine ⟨?_, ?_, ?_⟩ <;> rw [if_neg hc] <;> exact iff_of_false (by simp) hnall

/-- C10: the minimal variant's analyze_skin_color (src/app.py) equals the
first component of the extended variant's result (src/app2.py) on every
region: both are the sentinel together, and the defined colors coincide. -/
theorem analyze_skin_color_refines (img : Image) :
    analyze_skin_color img = (analyze_skin_color2 img).1 := by
  rw [analyze_skin_color_eq, analyze_skin_color2_eq]
  by_cases hc : (img.flatten.filter skinTest).length = 0
  · rw [if_pos hc, if_pos hc]
  · rw [if_neg hc, if_neg hc]

/-- C6: whenever the extended analyze_skin_color returns a visualization, it
has the same dimensions as the input region (same row count and same length
on every row), every pixel where the mask is false is exactly (0, 0, 0), and
every pixel where the mask is true is bit-identical to the input pixel. -/
theorem skin_visualization_spec (img vis : Image)
    (hvis : (analyze_skin_color2 img).2 = some vis) :
    vis.length = img.length ∧
    (∀ i : Nat, (vis[i]?).map List.length = (img[i]?).map List.length) ∧
    (∀ i j : Nat, ∀ p : Pixel, img[i]?.bind (fun row => row[j]?) = some p →
      vis[i]?.bind (fun row => row[j]?)
        = some (if skinTest p = true then p else blackPixel)) := by
  have hv : vis
      = img.map (fun row => row.map (fun p => if skinTest p then p else blackPixel)) := by
    rw [analyze_skin_color2_eq] at hvis
    by_cases hc : (img.flatten.filter skinTest).length = 0
    · rw [if_pos hc] at hvis
      exact absurd hvis (by simp)
    · rw [if_neg hc] at hvis
      have hvis2 : some (skinVisualization img (skinMask img)) = some vis := hvis
      injection hvis2 with hvis2
      rw [← hvis2, skinVisualization_eq]
  subst hv
  refine ⟨by simp, ?_, ?_⟩
  · intro i
    rw [List.getElem?_map]
    cases himg : img[i]? <;> simp
  · intro i j p hp
    cases himg : img[i]? with
    | none =>
      rw [himg] at hp
      exact absurd hp (by simp)
    | some row =>
      rw [himg] at hp
      have hp2 : row[j]? = some p := by simpa using hp
      simp [himg, hp2]

/-- Witness for C6 at a region with one skin pixel and one pure-blue pixel. -/
theorem skin_visualization_spec_witness :
    ((analyze_skin_color2 [[⟨91, 111, 150⟩, ⟨255, 0, 0⟩]]).2
        = some [[⟨91, 111, 150⟩, ⟨0, 0, 0⟩]]) ∧
    (([[⟨91, 111, 150⟩, ⟨0, 0, 0⟩]] : Image).length
        = ([[⟨91, 111, 150⟩, ⟨255, 0, 0⟩]] : Image).length ∧
     (∀ i : Nat, (([[⟨91, 111, 150⟩, ⟨0, 0, 0⟩]] : Image)[i]?).map List.length
        = (([[⟨91, 111, 150⟩, ⟨255, 0, 0⟩]] : Image)[i]?).map List.length) ∧
     (∀ i j : Nat, ∀ p : Pixel,
        (([[⟨91, 111, 150⟩, ⟨255, 0, 0⟩]] : Image)[i]?.bind (fun row => row[j]?)) = some p →
        (([[⟨91, 111, 150⟩, ⟨0, 0, 0⟩]] : Image)[i]?.bind (fun row => row[j]?))
          = some (if skinTest p = true then p else blackPixel))) :=
  ⟨by decide,
   skin_visualization_spec [[⟨91, 111, 150⟩, ⟨255, 0, 0⟩]] [[⟨91, 111, 150⟩, ⟨0, 0, 0⟩]]
     (by decide)⟩

/-- C7: a nonempty uniform region of a single color whose hue/saturation/value
representation lies in the skin-tone threshold range yields a mask selecting
every pixel, and both variants return exactly that color in red-green-blue
order. -/
theorem uniform_region_spec (hgt wd : Nat) (p : Pixel)
    (hh : 0 < hgt) (hw : 0 < wd)
    (hin : (bgr2hsvPixel p).h ≤ 20 ∧ 20 ≤ (bgr2hsvPixel p).s ∧ (bgr2hsvPixel p).s ≤ 255 ∧
           70 ≤ (bgr2hsvPixel p).v ∧ (bgr2hsvPixel p).v ≤ 255) :
    analyze_skin_color (List.replicate hgt (List.replicate wd p)) = some ⟨p.r, p.g, p.b⟩ ∧
    (analyze_skin_color2 (List.replicate hgt (List.replicate wd p))).1 = some ⟨p.r, p.g, p.b⟩ ∧
    skinMask (List.replicate hgt (List.replicate wd p))
      = List.replicate hgt (List.replicate wd true) := by
  obtain ⟨c1, c2, c3, c4, c5⟩ := hin
  have hst : skinTest p = true := decide_eq_true ⟨Nat.zero_le _, c1, c2, c3, c4, c5⟩
  have hflat : (List.replicate hgt (List.replicate wd p)).flatten
      = List.replicate (hgt * wd) p := List.flatten_replicate_replicate
  have hfil : (List.replicate (hgt * wd) p).filter skinTest = List.replicate (hgt * wd) p :=
    List.filter_replicate_of_pos hst
  have hpos : 0 < hgt * wd := Nat.mul_pos hh hw
  have hn : ¬ ((List.replicate (hgt * wd) p).length = 0) := by
    simp
    omega
  have hmean : reversedMean (List.replicate (hgt * wd) p) = ⟨p.r, p.g, p.b⟩ := by
    unfold reversedMean meanR meanG meanB
    simp only [List.map_replicate, List.sum_replicate, smul_eq_mul, List.length_replicate]
    rw [Nat.mul_div_cancel_left _ hpos, Nat.mul_div_cancel_left _ hpos,
      Nat.mul_div_cancel_left _ hpos]
  refine ⟨?_, ?_, ?_⟩
  · rw [analyze_skin_color_eq, hflat, hfil, if_neg hn, hmean]
  · rw [analyze_skin_color2_eq, hflat, hfil, if_neg hn]
    show some (reversedMean (List.replicate (hgt * wd) p)) = _
    rw [hmean]
  · rw [skinMask_eq_map]
    simp [hst]

/-- Witness for C7 at the uniform 2x2 region of BGR (91, 111, 150), whose
HSV representation is (10, 100, 150). -/
theorem uniform_region_spec_witness :
    0 < 2 ∧ 0 < 2 ∧
    ((bgr2hsvPixel ⟨91, 111, 150⟩).h ≤ 20 ∧ 20 ≤ (bgr2hsvPixel ⟨91, 111, 150⟩).s ∧
      (bgr2hsvPixel ⟨91, 111, 150⟩).s ≤ 255 ∧ 70 ≤ (bgr2hsvPixel ⟨91, 111, 150⟩).v ∧
      (bgr2hsvPixel ⟨91, 111, 150⟩).v ≤ 255) ∧
    (analyze_skin_color (List.replicate 2 (List.replicate 2 (⟨91, 111, 150⟩ : Pixel)))
        = some ⟨150, 111, 91⟩ ∧
     (analyze_skin_color2 (List.replicate 2 (List.replicate 2 (⟨91, 111, 150⟩ : Pixel)))).1
        = some ⟨150, 111, 91⟩ ∧
     skinMask (List.replicate 2 (List.replicate 2 (⟨91, 111, 150⟩ : Pixel)))
        = List.replicate 2 (List.replicate 2 true)) :=
  ⟨by decide, by decide, by decide,
   uniform_region_spec 2 2 ⟨91, 111, 150⟩ (by decide) (by decide) (by decide)⟩

/-! ### Region selector lemmas -/

lemma imageWidth_eq (img : Image) (W : Nat) (h0 : img ≠ [])
    (hW : ∀ row ∈ img, row.length = W) : imageWidth img = W := by
  cases img with
  | nil => exact absurd rfl h0
  | cons r t =>
    show r.length = W
    exact hW r (List.mem_cons_self r t)

lemma get2_top (img : Image) (pct : Nat) :
    (get_central_region2 img pct).2.top = img.length * (100 - pct) / 200 := rfl

lemma get2_bottom (img : Image) (pct : Nat) :
    (get_central_region2 img pct).2.bottom
      = img.length - img.length * (100 - pct) / 200 := rfl

lemma get2_left (img : Image) (pct : Nat) :
    (get_central_region2 img pct).2.left = imageWidth img * (100 - pct) / 200 := rfl

lemma get2_right (img : Image) (pct : Nat) :
    (get_central_region2 img pct).2.right
      = imageWidth img - imageWidth img * (100 - pct) / 200 := rfl

lemma get2_crop (img : Image) (pct : Nat) :
    (get_central_region2 img pct).1 =
      (sliceList img (img.length * (100 - pct) / 200)
          (img.length - img.length * (100 - pct) / 200)).map
        (fun row => sliceList row (imageWidth img * (100 - pct) / 200)
          (imageWidth img - imageWidth img * (100 - pct) / 200)) := rfl

lemma get_central_region_fst (img : Image) (pct : Nat) :
    get_central_region img pct = (get_central_region2 img pct).1 := rfl

lemma margin_le_half (D pct : Nat) : 2 * (D * (100 - pct) / 200) ≤ D := by
  have h1 : D * (100 - pct) ≤ 100 * D := by
    have := Nat.mul_le_mul_left D (show 100 - pct ≤ 100 by omega)
    omega
  omega

lemma margin_lt_half (D pct : Nat) (hD : 0 < D) (hpct : 1 ≤ pct) :
    2 * (D * (100 - pct) / 200) < D := by
  have h1 : D * (100 - pct) ≤ 99 * D := by
    have := Nat.mul_le_mul_left D (show 100 - pct ≤ 99 by omega)
    omega
  omega

/-- C4: at keep percentage 60 the margins are dimension * (100 - 60) / 200
truncated, bottom - top = H - 2*floor(H*20/100), right - left is the analogue
for the width, and the cropped region has exactly those dimensions (in both
variants, whose crops coincide). -/
theorem central_region_60_spec (img : Image) (W H : Nat)
    (hH : img.length = H) (hW : ∀ row ∈ img, row.length = W)
    (hH0 : 0 < H) (hW0 : 0 < W) :
    (get_central_region2 img 60).2.top = H * (100 - 60) / 200 ∧
    (get_central_region2 img 60).2.left = W * (100 - 60) / 200 ∧
    (get_central_region2 img 60).2.bottom - (get_central_region2 img 60).2.top
      = H - 2 * (H * 20 / 100) ∧
    (get_central_region2 img 60).2.right - (get_central_region2 img 60).2.left
      = W - 2 * (W * 20 / 100) ∧
    (get_central_region2 img 60).1.length
      = (get_central_region2 img 60).2.bottom - (get_central_region2 img 60).2.top ∧
    (∀ row ∈ (get_central_region2 img 60).1,
      row.length = (get_central_region2 img 60).2.right - (get_central_region2 img 60).2.left) ∧
    get_central_region img 60 = (get_central_region2 img 60).1 := by
  have hne : img ≠ [] := by
    intro h
    rw [h] at hH
    simp at hH
    omega
  have himgW : imageWidth img = W := imageWidth_eq img W hne hW
  have e40 : ∀ n : Nat, n * (100 - 60) / 200 = n / 5 := by
    intro n
    rw [show (100 : Nat) - 60 = 40 from rfl, show (200 : Nat) = 5 * 40 from rfl,
      Nat.mul_div_mul_right _ _ (show 0 < 40 by omega)]
  have e20 : ∀ n : Nat, n * 20 / 100 = n / 5 := by
    intro n
    rw [show (100 : Nat) = 5 * 20 from rfl, Nat.mul_div_mul_right _ _ (show 0 < 20 by omega)]
  have hH5 : H / 5 * 5 ≤ H := Nat.div_mul_le_self H 5
  have hW5 : W / 5 * 5 ≤ W := Nat.div_mul_le_self W 5
  refine ⟨?_, ?_, ?_, ?_, ?_, ?_, ?_⟩
  · rw [get2_top, hH]
  · rw [get2_left, himgW]
  · rw [get2_top, get2_bottom, hH, e40, e20]
    omega
  · rw [get2_left, get2_right, himgW, e40, e20]
    omega
  · rw [get2_crop, get2_top, get2_bottom, List.length_map]
    simp only [sliceList, List.length_take, List.length_drop, hH]
    rw [e40]
    omega
  · intro row hrow
    rw [get2_crop] at hrow
    obtain ⟨r, hr, rfl⟩ := List.mem_map.1 hrow
    have hrimg : r ∈ img := List.mem_of_mem_drop (List.mem_of_mem_take hr)
    have hrW : r.length = W := hW r hrimg
    rw [get2_left, get2_right, himgW]
    simp only [sliceList, List.length_take, List.length_drop, hrW]
    rw [e40]
    omega
  · exact get_central_region_fst img 60

/-- Witness for C4 on a 7-by-5 image: margins are 1, the crop is 5 by 3. -/
theorem central_region_60_spec_witness :
    ((List.replicate 7 (List.replicate 5 (⟨1, 2, 3⟩ : Pixel))).length = 7) ∧
    (∀ row ∈ List.replicate 7 (List.replicate 5 (⟨1, 2, 3⟩ : Pixel)), row.length = 5) ∧
    0 < 7 ∧ 0 < 5 ∧
    ((get_central_region2 (List.replicate 7 (List.replicate 5 (⟨1, 2, 3⟩ : Pixel))) 60).2.top
        = 7 * (100 - 60) / 200 ∧
     (get_central_region2 (List.replicate 7 (List.replicate 5 (⟨1, 2, 3⟩ : Pixel))) 60).2.left
        = 5 * (100 - 60) / 200 ∧
     (get_central_region2 (List.replicate 7 (List.replicate 5 (⟨1, 2, 3⟩ : Pixel))) 60).2.bottom
        - (get_central_region2 (List.replicate 7 (List.replicate 5 (⟨1, 2, 3⟩ : Pixel))) 60).2.top
        = 7 - 2 * (7 * 20 / 100) ∧
     (get_central_region2 (List.replicate 7 (List.replicate 5 (⟨1, 2, 3⟩ : Pixel))) 60).2.right
        - (get_central_region2 (List.replicate 7 (List.replicate 5 (⟨1, 2, 3⟩ : Pixel))) 60).2.left
        = 5 - 2 * (5 * 20 / 100) ∧
     (get_central_region2 (List.replicate 7 (List.replicate 5 (⟨1, 2, 3⟩ : Pixel))) 60).1.length
        = (get_central_region2 (List.replicate 7 (List.replicate 5 (⟨1, 2, 3⟩ : Pixel))) 60).2.bottom
          - (get_central_region2 (List.replicate 7 (List.replicate 5 (⟨1, 2, 3⟩ : Pixel))) 60).2.top ∧
     (∀ row ∈ (get_central_region2 (List.replicate 7 (List.replicate 5 (⟨1, 2, 3⟩ : Pixel))) 60).1,
        row.length
          = (get_central_region2 (List.replicate 7 (List.replicate 5 (⟨1, 2, 3⟩ : Pixel))) 60).2.right
            - (get_central_region2 (List.replicate 7 (List.replicate 5 (⟨1, 2, 3⟩ : Pixel))) 60).2.left) ∧
     get_central_region (List.replicate 7 (List.replicate 5 (⟨1, 2, 3⟩ : Pixel))) 60
        = (get_central_region2 (List.replicate 7 (List.replicate 5 (⟨1, 2, 3⟩ : Pixel))) 60).1) :=
  ⟨by decide, by decide, by decide, by decide,
   central_region_60_spec _ 5 7 (by decide) (by decide) (by decide) (by decide)⟩

/-- C5 (amended): for every image of positive width and height and every keep
percentage in [0, 100], the bounds are ordered and lie within the image:
0 ≤ top ≤ bottom ≤ height and 0 ≤ left ≤ right ≤ width; the strict
inequalities top < bottom and left < right hold whenever the percentage is at
least 1 (at percentage 0 they can collapse to a point). -/
theorem central_region_bounds_invariant (img : Image) (pct : Nat)
    (hH : 0 < img.length) (hW : 0 < imageWidth img) (hpct : pct ≤ 100) :
    (0 ≤ (get_central_region2 img pct).2.top ∧
     (get_central_region2 img pct).2.top ≤ (get_central_region2 img pct).2.bottom ∧
     (get_central_region2 img pct).2.bottom ≤ img.length ∧
     0 ≤ (get_central_region2 img pct).2.left ∧
     (get_central_region2 img pct).2.left ≤ (get_central_region2 img pct).2.right ∧
     (get_central_region2 img pct).2.right ≤ imageWidth img) ∧
    (1 ≤ pct →
      (get_central_region2 img pct).2.top < (get_central_region2 img pct).2.bottom ∧
      (get_central_region2 img pct).2.left < (get_central_region2 img pct).2.right) := by
  rw [get2_top, get2_bottom, get2_left, get2_right]
  have h1 := margin_le_half img.length pct
  have h2 := margin_le_half (imageWidth img) pct
  constructor
  · omega
  · intro h
    have h3 := margin_lt_half img.length pct hH h
    have h4 := margin_lt_half (imageWidth img) pct hW h
    omega

/-- Counterexample for C5 as stated: at keep percentage 0 (within [0, 100])
on a 2x2 image the bounds collapse to top = bottom = 1, so the claimed strict
inequality top < bottom fails. -/
theorem central_region_bounds_counterexample :
    0 < ([[⟨1, 2, 3⟩, ⟨4, 5, 6⟩], [⟨7, 8, 9⟩, ⟨10, 11, 12⟩]] : Image).length ∧
    0 < imageWidth [[⟨1, 2, 3⟩, ⟨4, 5, 6⟩], [⟨7, 8, 9⟩, ⟨10, 11, 12⟩]] ∧
    (0 : Nat) ≤ 100 ∧
    ¬ ((get_central_region2 [[⟨1, 2, 3⟩, ⟨4, 5, 6⟩], [⟨7, 8, 9⟩, ⟨10, 11, 12⟩]] 0).2.top
        < (get_central_region2 [[⟨1, 2, 3⟩, ⟨4, 5, 6⟩], [⟨7, 8, 9⟩, ⟨10, 11, 12⟩]] 0).2.bottom) := by
  decide

/-- Witness for the amended C5 on a 2x2 image at keep percentage 60. -/
theorem central_region_bounds_invariant_witness :
    0 < ([[⟨1, 2, 3⟩, ⟨4, 5, 6⟩], [⟨7, 8, 9⟩, ⟨10, 11, 12⟩]] : Image).length ∧
    0 < imageWidth [[⟨1, 2, 3⟩, ⟨4, 5, 6⟩], [⟨7, 8, 9⟩, ⟨10, 11, 12⟩]] ∧
    (60 : Nat) ≤ 100 ∧
    ((0 ≤ (get_central_region2 [[⟨1, 2, 3⟩, ⟨4, 5, 6⟩], [⟨7, 8, 9⟩, ⟨10, 11, 12⟩]] 60).2.top ∧
      (get_central_region2 [[⟨1, 2, 3⟩, ⟨4, 5, 6⟩], [⟨7, 8, 9⟩, ⟨10, 11, 12⟩]] 60).2.top
        ≤ (get_central_region2 [[⟨1, 2, 3⟩, ⟨4, 5, 6⟩], [⟨7, 8, 9⟩, ⟨10, 11, 12⟩]] 60).2.bottom ∧
      (get_central_region2 [[⟨1, 2, 3⟩, ⟨4, 5, 6⟩], [⟨7, 8, 9⟩, ⟨10, 11, 12⟩]] 60).2.bottom
        ≤ ([[⟨1, 2, 3⟩, ⟨4, 5, 6⟩], [⟨7, 8, 9⟩, ⟨10, 11, 12⟩]] : Image).length ∧
      0 ≤ (get_central_region2 [[⟨1, 2, 3⟩, ⟨4, 5, 6⟩], [⟨7, 8, 9⟩, ⟨10, 11, 12⟩]] 60).2.left ∧
      (get_central_region2 [[⟨1, 2, 3⟩, ⟨4, 5, 6⟩], [⟨7, 8, 9⟩, ⟨10, 11, 12⟩]] 60).2.left
        ≤ (get_central_region2 [[⟨1, 2, 3⟩, ⟨4, 5, 6⟩], [⟨7, 8, 9⟩, ⟨10, 11, 12⟩]] 60).2.right ∧
      (get_central_region2 [[⟨1, 2, 3⟩, ⟨4, 5, 6⟩], [⟨7, 8, 9⟩, ⟨10, 11, 12⟩]] 60).2.right
        ≤ imageWidth [[⟨1, 2, 3⟩, ⟨4, 5, 6⟩], [⟨7, 8, 9⟩, ⟨10, 11, 12⟩]]) ∧
     (1 ≤ 60 →
      (get_central_region2 [[⟨1, 2, 3⟩, ⟨4, 5, 6⟩], [⟨7, 8, 9⟩, ⟨10, 11, 12⟩]] 60).2.top
        < (get_central_region2 [[⟨1, 2, 3⟩, ⟨4, 5, 6⟩], [⟨7, 8, 9⟩, ⟨10, 11, 12⟩]] 60).2.bottom ∧
      (get_central_region2 [[⟨1, 2, 3⟩, ⟨4, 5, 6⟩], [⟨7, 8, 9⟩, ⟨10, 11, 12⟩]] 60).2.left
        < (get_central_region2 [[⟨1, 2, 3⟩, ⟨4, 5, 6⟩], [⟨7, 8, 9⟩, ⟨10, 11, 12⟩]] 60).2.right)) :=
  ⟨by decide, by decide, by decide,
   central_region_bounds_invariant [[⟨1, 2, 3⟩, ⟨4, 5, 6⟩], [⟨7, 8, 9⟩, ⟨10, 11, 12⟩]] 60
     (by decide) (by decide) (by decide)⟩

/-- C8: at keep percentage 100 the margins are zero, the bounds are
(0, H, 0, W) and the crop is the input image itself, in both variants. -/
theorem central_region_100_spec (img : Image) (W H : Nat)
    (hH : img.length = H) (hW : ∀ row ∈ img, row.length = W)
    (hH0 : 0 < H) (hW0 : 0 < W) :
    get_central_region2 img 100 = (img, ⟨0, H, 0, W⟩) ∧
    get_central_region img 100 = img := by
  have hne : img ≠ [] := by
    intro h
    rw [h] at hH
    simp at hH
    omega
  have himgW : imageWidth img = W := imageWidth_eq img W hne hW
  have hcrop : (get_central_region2 img 100).1 = img := by
    rw [get2_crop]
    have houter : sliceList img (img.length * (100 - 100) / 200)
        (img.length - img.length * (100 - 100) / 200) = img := by
      simp [sliceList]
    rw [houter]
    have hrowid : ∀ row ∈ img, sliceList row (imageWidth img * (100 - 100) / 200)
        (imageWidth img - imageWidth img * (100 - 100) / 200) = row := by
      intro row hrow
      simp only [Nat.sub_self, Nat.mul_zero, Nat.zero_div, Nat.sub_zero, sliceList,
        List.drop_zero]
      rw [himgW, ← hW row hrow, List.take_length]
    exact (List.map_congr_left hrowid).trans (List.map_id' img)
  have hcoords : (get_central_region2 img 100).2 = ⟨0, H, 0, W⟩ := by
    show (⟨img.length * (100 - 100) / 200,
          img.length - img.length * (100 - 100) / 200,
          imageWidth img * (100 - 100) / 200,
          imageWidth img - imageWidth img * (100 - 100) / 200⟩ : RegionCoords)
        = ⟨0, H, 0, W⟩
    rw [himgW, hH]
    norm_num
  exact ⟨Prod.ext hcrop hcoords, (get_central_region_fst img 100).trans hcrop⟩

/-- Witness for C8 on a concrete 2x2 image. -/
theorem central_region_100_spec_witness :
    (([[⟨1, 2, 3⟩, ⟨4, 5, 6⟩], [⟨7, 8, 9⟩, ⟨10, 11, 12⟩]] : Image).length = 2) ∧
    (∀ row ∈ ([[⟨1, 2, 3⟩, ⟨4, 5, 6⟩], [⟨7, 8, 9⟩, ⟨10, 11, 12⟩]] : Image), row.length = 2) ∧
    0 < 2 ∧
    (get_central_region2 [[⟨1, 2, 3⟩, ⟨4, 5, 6⟩], [⟨7, 8, 9⟩, ⟨10, 11, 12⟩]] 100
        = ([[⟨1, 2, 3⟩, ⟨4, 5, 6⟩], [⟨7, 8, 9⟩, ⟨10, 11, 12⟩]], ⟨0, 2, 0, 2⟩) ∧
     get_central_region [[⟨1, 2, 3⟩, ⟨4, 5, 6⟩], [⟨7, 8, 9⟩, ⟨10, 11, 12⟩]] 100
        = [[⟨1, 2, 3⟩, ⟨4, 5, 6⟩], [⟨7, 8, 9⟩, ⟨10, 11, 12⟩]]) :=
  ⟨by decide, by decide, by decide,
   central_region_100_spec _ 2 2 (by decide) (by decide) (by decide) (by decide)⟩

/-! ### Hex formatting lemmas -/

lemma hexDigitsCore_small (fuel m : Nat) (hm : m < 16) :
    hexDigitsCore fuel m = [pyHexDigitChar m] := by
  cases fuel with
  | zero => simp [hexDigitsCore, Nat.mod_eq_of_lt hm]
  | succ k => simp [hexDigitsCore, hm]

lemma pyHexDigits_two (n : Nat) (hn : n ≤ 255) :
    pyHexDigits n = if n < 16 then [pyHexDigitChar n]
      else [pyHexDigitChar (n / 16), pyHexDigitChar (n % 16)] := by
  unfold pyHexDigits
  by_cases h : n < 16
  · rw [if_pos h, hexDigitsCore_small _ _ h]
  · rw [if_neg h]
    cases n with
    | zero => omega
    | succ k =>
      show (if k + 1 < 16 then [pyHexDigitChar (k + 1)]
        else hexDigitsCore k ((k + 1) / 16) ++ [pyHexDigitChar ((k + 1) % 16)]) = _
      rw [if_neg h, hexDigitsCore_small k _ (by omega)]
      rfl

lemma format02x_eq (n : Nat) (hn : n ≤ 255) :
    format02x n = String.mk [pyHexDigitChar (n / 16), pyHexDigitChar (n % 16)] := by
  unfold format02x
  rw [pyHexDigits_two n hn]
  by_cases h : n < 16
  · rw [if_pos h, Nat.div_eq_of_lt h, Nat.mod_eq_of_lt h]
    rfl
  · rw [if_neg h]
    rfl

lemma pyHexDigitChar_lower (m : Nat) (hm : m < 16) :
    isLowerHexDigit (pyHexDigitChar m) = true := by
  interval_cases m <;> decide

lemma hexVal_pyHexDigitChar (m : Nat) (hm : m < 16) :
    hexVal (pyHexDigitChar m) = m := by
  interval_cases m <;> decide

/-- C9: for channel values in [0, 255] the formatted code is the character
'#' followed by exactly six lowercase hexadecimal digits, two per channel in
red-green-blue order (each pair decoding back to its channel value); in
particular RGB (255, 0, 16) formats as "#ff0010". -/
theorem hex_color_spec (r g b : Nat) (hr : r ≤ 255) (hg : g ≤ 255) (hb : b ≤ 255) :
    (∃ d1 d2 d3 d4 d5 d6 : Char,
      hexColor ⟨r, g, b⟩ = String.mk [Char.ofNat 35, d1, d2, d3, d4, d5, d6] ∧
      (∀ c ∈ [d1, d2, d3, d4, d5, d6], isLowerHexDigit c = true) ∧
      16 * hexVal d1 + hexVal d2 = r ∧
      16 * hexVal d3 + hexVal d4 = g ∧
      16 * hexVal d5 + hexVal d6 = b) ∧
    hexColor ⟨255, 0, 16⟩ = "#ff0010" := by
  constructor
  · refine ⟨pyHexDigitChar (r / 16), pyHexDigitChar (r % 16),
      pyHexDigitChar (g / 16), pyHexDigitChar (g % 16),
      pyHexDigitChar (b / 16), pyHexDigitChar (b % 16), ?_, ?_, ?_, ?_, ?_⟩
    · unfold hexColor
      rw [format02x_eq r hr, format02x_eq g hg, format02x_eq b hb]
      exact String.ext rfl
    · intro c hc
      simp only [List.mem_cons, List.not_mem_nil, or_false] at hc
      rcases hc with rfl | rfl | rfl | rfl | rfl | rfl <;>
        exact pyHexDigitChar_lower _ (by omega)
    · rw [hexVal_pyHexDigitChar _ (by omega), hexVal_pyHexDigitChar _ (by omega)]
      omega
    · rw [hexVal_pyHexDigitChar _ (by omega), hexVal_pyHexDigitChar _ (by omega)]
      omega
    · rw [hexVal_pyHexDigitChar _ (by omega), hexVal_pyHexDigitChar _ (by omega)]
      omega
  · decide

/-- Witness for C9 at RGB (255, 0, 16). -/
theorem hex_color_spec_witness :
    (255 : Nat) ≤ 255 ∧ (0 : Nat) ≤ 255 ∧ (16 : Nat) ≤ 255 ∧
    ((∃ d1 d2 d3 d4 d5 d6 : Char,
        hexColor ⟨255, 0, 16⟩ = String.mk [Char.ofNat 35, d1, d2, d3, d4, d5, d6] ∧
        (∀ c ∈ [d1, d2, d3, d4, d5, d6], isLowerHexDigit c = true) ∧
        16 * hexVal d1 + hexVal d2 = 255 ∧
        16 * hexVal d3 + hexVal d4 = 0 ∧
        16 * hexVal d5 + hexVal d6 = 16) ∧
     hexColor ⟨255, 0, 16⟩ = "#ff0010") :=
  ⟨by decide, by decide, by decide,
   hex_color_spec 255 0 16 (by decide) (by decide) (by decide)⟩

end SkinTone
